import Mathlib

/-!
Verification of the world-state synchronization component implemented in
`Src/Libs/SimulatedNao/SimulatedRobot.cpp`.

The development shallowly embeds the component: machine floats become exact
rationals (for the ball kinematics, where concrete evaluation matters) or
reals (for pose geometry and the friction model, which use `cos`, `sin` and
square roots), the 32-bit unsigned clock becomes `Nat` with explicit
wraparound, the simulator scene and the random generator become explicit
inputs, and the hidden per-instance rolling state (`lastBallPosition`,
`lastBallTime`, `hadVelocity`, `curveVel`) becomes an explicit state record
threaded through a step function.
-/

namespace SimulatedRobot

/-- A 2D vector with exact rational coordinates (embeds `Vector2f`). -/
structure Vec2 where
  x : ℚ
  y : ℚ
deriving DecidableEq, Repr

/-- A 3D vector with exact rational coordinates (embeds `Vector3f`). -/
structure Vec3 where
  x : ℚ
  y : ℚ
  z : ℚ
deriving DecidableEq, Repr

/-- The zero vector, `Vector3f::Zero()`. -/
def Vec3.zero : Vec3 := ⟨0, 0, 0⟩

/-- The hidden rolling state a synchronizer instance keeps between calls to
`getWorldState`: the previous canonical ball position, the previous sample's
timestamp, whether the previously reported velocity had a nonzero horizontal
part, and the current curve angle. -/
structure BallState where
  lastBallPosition : Vec3
  lastBallTime : Nat
  hadVelocity : Bool
  curveVel : ℚ
deriving DecidableEq, Repr

/-- Modelled from the spec: the member initializers of `lastBallPosition`,
`lastBallTime`, `hadVelocity` and `curveVel` live in `SimulatedRobot.h`,
which is not among the files at hand. Per the spec the ball hidden state is
created lazily on the first sample (`lastBallTime` zero means no previous
sample) and the curve bias starts at rest, so the fresh state is all zero
with `hadVelocity` false. -/
def ballState0 : BallState :=
  { lastBallPosition := Vec3.zero
    lastBallTime := 0
    hadVelocity := false
    curveVel := 0 }

/-- The value of the C++ expression `currentTime - lastBallTime` on 32-bit
unsigned operands: subtraction wrapping modulo `2 ^ 32 = 4294967296`. -/
def elapsedMillis (currentTime lastBallTime : Nat) : Nat :=
  (currentTime + (4294967296 - lastBallTime % 4294967296)) % 4294967296

/-- `getPosition3D` (lines 180–186): the raw simulator position in meters,
scaled to millimeters; a 2D backend reports no height, so the z component is
zero there. -/
def getPosition3D (is2D : Bool) (raw : Vec3) : Vec3 :=
  ⟨raw.x * 1000, raw.y * 1000, (if is2D then 0 else raw.z) * 1000⟩

/-- The canonical ball position computed at lines 81–85: `getPosition3D`,
then for a 2D backend the height is forced to 50 mm, then for a first-team
synchronizer both horizontal axes are negated. -/
def canonicalBallPos (is2D firstTeam : Bool) (raw : Vec3) : Vec3 :=
  let p := getPosition3D is2D raw
  let q := if is2D then Vec3.mk p.x p.y 50 else p
  if firstTeam then ⟨-q.x, -q.y, q.z⟩ else q

/-- The per-call inputs the environment supplies to the ball part of
`getWorldState`: the clock value `Time::getCurrentSystemTime()`, the raw
scene position of the ball, the ball velocity the physics engine reports,
and the standard normal sample behind this call's potential
`Random::normal` draw. -/
structure BallInput where
  currentTime : Nat
  rawPos : Vec3
  nativeVel : Vec3
  randSample : ℚ
deriving DecidableEq, Repr

instance : Inhabited BallInput := ⟨⟨0, Vec3.zero, Vec3.zero, 0⟩⟩

/-- The estimated ball velocity (lines 87–89 and 106–107): the finite
difference `1000 * (position - lastBallPosition) / (currentTime -
lastBallTime)` when a previous sample exists (`lastBallTime` nonzero) with a
differing timestamp, and the zero vector otherwise. -/
def estVelocity (is2D firstTeam : Bool) (s : BallState) (inp : BallInput) : Vec3 :=
  if s.lastBallTime ≠ 0 ∧ s.lastBallTime ≠ inp.currentTime then
    ⟨1000 * ((canonicalBallPos is2D firstTeam inp.rawPos).x - s.lastBallPosition.x) /
       (elapsedMillis inp.currentTime s.lastBallTime : ℚ),
     1000 * ((canonicalBallPos is2D firstTeam inp.rawPos).y - s.lastBallPosition.y) /
       (elapsedMillis inp.currentTime s.lastBallTime : ℚ),
     1000 * ((canonicalBallPos is2D firstTeam inp.rawPos).z - s.lastBallPosition.z) /
       (elapsedMillis inp.currentTime s.lastBallTime : ℚ)⟩
  else Vec3.zero

/-- Whether this call's estimated velocity has a nonzero horizontal part,
the C++ test `gtBall.velocity.head<2>() != Vector2f::Zero()`. -/
def movingAfter (is2D firstTeam : Bool) (s : BallState) (inp : BallInput) : Bool :=
  decide ((estVelocity is2D firstTeam s inp).x ≠ 0 ∨ (estVelocity is2D firstTeam s inp).y ≠ 0)

/-- The standard deviation handed to `Random::normal` at line 96:
`0.015f * (currentTime - lastBallTime) / 1000.f`. -/
def curveStdDev (s : BallState) (inp : BallInput) : ℚ :=
  (0.015 : ℚ) * (elapsedMillis inp.currentTime s.lastBallTime : ℚ) / 1000

/-- Whether this call invokes `Random::normal` (line 95–96): only in the
velocity-estimation branch, only on a 3D backend, and only when the previous
call's velocity was zero while the current one is nonzero. `some σ` records
the standard deviation requested. -/
def drewOf (is2D firstTeam : Bool) (s : BallState) (inp : BallInput) : Option ℚ :=
  if (s.lastBallTime ≠ 0 ∧ s.lastBallTime ≠ inp.currentTime) ∧ is2D = false ∧
      s.hadVelocity = false ∧ movingAfter is2D firstTeam s inp = true then
    some (curveStdDev s inp)
  else none

/-- The curve angle after this call (lines 95–98): inside the 3D
velocity-estimation branch the draw happens first (when the horizontal
velocity just turned nonzero), then the angle is reset to zero when the
current horizontal velocity is zero; outside that branch the stored angle is
untouched. `Random::normal σ` is `σ` times a standard normal sample. -/
def curveAfter (is2D firstTeam : Bool) (s : BallState) (inp : BallInput) : ℚ :=
  if (s.lastBallTime ≠ 0 ∧ s.lastBallTime ≠ inp.currentTime) ∧ is2D = false then
    let rolled :=
      if s.hadVelocity = false ∧ movingAfter is2D firstTeam s inp = true then
        curveStdDev s inp * inp.randSample
      else s.curveVel
    if movingAfter is2D firstTeam s inp = false then 0 else rolled
  else s.curveVel

/-- What one call of the ball part of `getWorldState` produces: the reported
ball sample (`gtPos`, `gtVel`), the `Random::normal` draw it performed, if
any, and the updated hidden state. -/
structure BallResult where
  gtPos : Vec3
  gtVel : Vec3
  drew : Option ℚ
  state : BallState
deriving DecidableEq, Repr

/-- The ball part of `getWorldState` (lines 78–112) as a step function: the
reported sample, the draw record, and the updated state. Lines 108–111
update `lastBallPosition`, `lastBallTime` and `hadVelocity` unconditionally.
The write-back of the rotated native velocity (lines 99–103) mutates the
external physics engine, whose next-step velocity reappears as the next
call's `nativeVel` input, so it is not part of this state. -/
def ballStep (is2D firstTeam : Bool) (s : BallState) (inp : BallInput) : BallResult :=
  { gtPos := canonicalBallPos is2D firstTeam inp.rawPos
    gtVel := estVelocity is2D firstTeam s inp
    drew := drewOf is2D firstTeam s inp
    state :=
      { lastBallPosition := canonicalBallPos is2D firstTeam inp.rawPos
        lastBallTime := inp.currentTime
        hadVelocity := movingAfter is2D firstTeam s inp
        curveVel := curveAfter is2D firstTeam s inp } }

/-- The hidden state after a sequence of calls, each fed by its input. -/
def ballStateAfter (is2D firstTeam : Bool) (s : BallState) : List BallInput → BallState
  | [] => s
  | inp :: rest => ballStateAfter is2D firstTeam (ballStep is2D firstTeam s inp).state rest

/-- The result of the `i`-th call (0-based) of a run over the input list `l`
that starts from the fresh synchronizer state. -/
def callResult (is2D firstTeam : Bool) (l : List BallInput) (i : Nat) : BallResult :=
  ballStep is2D firstTeam (ballStateAfter is2D firstTeam ballState0 (l.take i))
    (l.getD i default)

/-- Whether a call reported a ball velocity with nonzero horizontal part. -/
def reportsMoving (r : BallResult) : Bool :=
  decide (r.gtVel.x ≠ 0 ∨ r.gtVel.y ≠ 0)

/-- Whether the call before call `i` of a run reported a nonzero horizontal
velocity; false for the first call, which has no predecessor. -/
def prevMoving (is2D firstTeam : Bool) (l : List BallInput) : Nat → Bool
  | 0 => false
  | i + 1 => reportsMoving (callResult is2D firstTeam l i)

/-- The timestamp of the `i`-th input of a run. -/
def timeAt (l : List BallInput) (i : Nat) : Nat := (l.getD i default).currentTime

/-- A 2D pose over ℝ: rotation (radians) and translation, embedding
`Pose2f` restricted to the fields the transforms touch. -/
structure Pose2f where
  rotation : ℝ
  x : ℝ
  y : ℝ

/-- Modelled from the spec: `Pose2f` composition (`Pose2f operator+`, whose
definition is not among the files at hand) composes two rigid 2D
transforms, as the spec's "compose the field-rotation convention with the
raw pose" requires: the rotations add and the right translation is rotated
by the left rotation before the translations add. -/
noncomputable def Pose2f.comp (a b : Pose2f) : Pose2f :=
  ⟨a.rotation + b.rotation,
   a.x + (Real.cos a.rotation * b.x - Real.sin a.rotation * b.y),
   a.y + (Real.sin a.rotation * b.x + Real.cos a.rotation * b.y)⟩

/-- The read-path raw-to-canonical pose transform (lines 125–126, 134–135
and 142): a first-team synchronizer composes `Pose2f(pi)` with the raw
pose; a second-team synchronizer reports the raw pose unchanged. -/
noncomputable def readPose (firstTeam : Bool) (p : Pose2f) : Pose2f :=
  if firstTeam then Pose2f.comp ⟨Real.pi, 0, 0⟩ p else p

/-- Modelled from the spec: `Angle::normalize` (not among the files at
hand) normalizes an angle into one period around zero, preserving it modulo
`2 * pi`. -/
noncomputable def normalizeAngle (a : ℝ) : ℝ :=
  a - 2 * Real.pi * ⌊(a + Real.pi) / (2 * Real.pi)⌋

/-- The placement canonical-to-raw transform of `moveRobotPerTeam`
(line 147), restricted to the planar components it changes: a first-team
synchronizer negates both horizontal axes and adds `pi` to the yaw
(normalized); a second-team synchronizer passes the pose through. -/
noncomputable def moveTransform (firstTeam : Bool) (p : Pose2f) : Pose2f :=
  if firstTeam then ⟨normalizeAngle (p.rotation + Real.pi), -p.x, -p.y⟩ else p

/-- A scene object as the roster logic sees it: an identity (distinguishing
the handle) and the player number `getNumber` parses from its name. -/
structure SceneObject where
  oid : Nat
  number : ℤ
deriving DecidableEq, Repr

/-- One player entry of the ground-truth snapshot: number, 2D pose and the
upright indicator. -/
structure GroundTruthPlayer where
  number : ℤ
  pose : Pose2f
  upright : Bool

/-- One ball entry of the ground-truth snapshot. -/
structure GroundTruthBall where
  position : Vec3
  velocity : Vec3
deriving DecidableEq, Repr

/-- The output snapshot of `getWorldState`: own pose, both player lists and
the ball list. -/
structure GroundTruthWorldState where
  ownPose : Pose2f
  ownTeamPlayers : List GroundTruthPlayer
  opponentTeamPlayers : List GroundTruthPlayer
  balls : List GroundTruthBall

/-- `getWorldState` (lines 70–138). Environment inputs stand for the
simulator queries: `getPose2f` yields each rostered robot's raw pose and
upright flag, `ownPose` stands for the `getRobotPose` result (computed
outside this translation unit), `ball` is the per-call ball input when a
ball object is registered process-wide. Returns the snapshot, the updated
hidden ball state and the `Random::normal` draw record. -/
noncomputable def getWorldState (robotsPerTeam : ℤ) (is2D firstTeam : Bool)
    (firstTeamRobots secondTeamRobots : List SceneObject)
    (getPose2f : SceneObject → Pose2f × Bool) (ownPose : Pose2f)
    (ball : Option BallInput) (s : BallState) :
    GroundTruthWorldState × BallState × Option ℚ :=
  let ballPart : List GroundTruthBall × BallState × Option ℚ :=
    match ball with
    | none => ([], s, none)
    | some inp => ([⟨(ballStep is2D firstTeam s inp).gtPos,
        (ballStep is2D firstTeam s inp).gtVel⟩],
        (ballStep is2D firstTeam s inp).state, (ballStep is2D firstTeam s inp).drew)
  let firstTeamPlayers : List GroundTruthPlayer :=
    firstTeamRobots.map fun obj =>
      { number := obj.number
        pose := readPose firstTeam (getPose2f obj).1
        upright := (getPose2f obj).2 }
  let secondTeamPlayers : List GroundTruthPlayer :=
    secondTeamRobots.map fun obj =>
      { number := obj.number - robotsPerTeam
        pose := readPose firstTeam (getPose2f obj).1
        upright := (getPose2f obj).2 }
  ({ ownPose := ownPose
     ownTeamPlayers := if firstTeam then firstTeamPlayers else secondTeamPlayers
     opponentTeamPlayers := if firstTeam then secondTeamPlayers else firstTeamPlayers
     balls := ballPart.1 },
   ballPart.2.1, ballPart.2.2)

/-- A 2D vector over ℝ, for the friction model (its speed is a square
root). -/
structure Vec2R where
  x : ℝ
  y : ℝ

/-- The Euclidean norm `ballVelocity.norm()` of a 2D velocity. -/
noncomputable def speed (v : Vec2R) : ℝ := Real.sqrt (v.x ^ 2 + v.y ^ 2)

/-- The velocity update of `applyBallFriction` (lines 193–201): the new
speed adds `friction * simStepLength / 1000` to the current speed; a
non-positive new speed zeroes the velocity, otherwise the velocity is
rescaled by `newBallSpeed / ballSpeed`. -/
noncomputable def frictionVelocity (v : Vec2R) (friction simStepLength : ℝ) : Vec2R :=
  if speed v + friction * simStepLength / 1000 ≤ 0 then ⟨0, 0⟩
  else ⟨v.x * ((speed v + friction * simStepLength / 1000) / speed v),
        v.y * ((speed v + friction * simStepLength / 1000) / speed v)⟩

/-- `applyBallFriction` (lines 188–202): a no-op unless the backend is 2D
and a ball is registered; otherwise the ball velocity is updated by
`frictionVelocity`. `ball` is the registered ball's current velocity, if
any. -/
noncomputable def applyBallFriction (is2D : Bool) (ball : Option Vec2R)
    (friction simStepLength : ℝ) : Option Vec2R :=
  if is2D = false then ball
  else
    match ball with
    | none => none
    | some v => some (frictionVelocity v friction simStepLength)

/-- `isFirstTeam` (lines 204–207): an object belongs to the first team when
its parsed number is at most `robotsPerTeam`. -/
def isFirstTeam (robotsPerTeam : ℤ) (obj : SceneObject) : Bool :=
  decide (obj.number ≤ robotsPerTeam)

/-- One roster loop of the constructor (lines 37–48, repeated at 51–62): a
child whose parsed number equals the owning robot's is skipped; every other
child is appended to the first-team list when its number is at most
`robotsPerTeam` and to the second-team list otherwise. -/
def classifyGroup (robotsPerTeam robotNumber : ℤ) (group : List SceneObject)
    (acc : List SceneObject × List SceneObject) : List SceneObject × List SceneObject :=
  group.foldl
    (fun acc obj =>
      if obj.number ≠ robotNumber then
        if obj.number ≤ robotsPerTeam then (acc.1 ++ [obj], acc.2)
        else (acc.1, acc.2 ++ [obj])
      else acc)
    acc

/-- The constructor's roster construction (lines 33–62): both lists start
empty, then the "RoboCup.robots" group and the "RoboCup.extras" group are
scanned in turn. -/
def buildRosters (robotsPerTeam robotNumber : ℤ)
    (robotsGroup extrasGroup : List SceneObject) :
    List SceneObject × List SceneObject :=
  classifyGroup robotsPerTeam robotNumber extrasGroup
    (classifyGroup robotsPerTeam robotNumber robotsGroup ([], []))

/-- `getPosition` (lines 172–178): the raw 2D simulator position in meters,
scaled to millimeters. -/
def getPosition (raw : Vec2) : Vec2 := ⟨raw.x * 1000, raw.y * 1000⟩

/-- `getAbsoluteBallPosition` (lines 155–160): when a ball object is
registered its absolute position is written to the output parameter, and
the registration state is returned; `ball` carries the registered ball's
raw position, if any. -/
def getAbsoluteBallPosition (ball : Option Vec2) (ballPosition : Vec2) : Bool × Vec2 :=
  match ball with
  | some raw => (true, getPosition raw)
  | none => (false, ballPosition)

theorem elapsedMillis_eq_sub {currentTime lastBallTime : Nat}
    (hle : lastBallTime ≤ currentTime) (hlt : currentTime < 4294967296) :
    elapsedMillis currentTime lastBallTime = currentTime - lastBallTime := by
  unfold elapsedMillis
  have h : lastBallTime % 4294967296 = lastBallTime :=
    Nat.mod_eq_of_lt (lt_of_le_of_lt hle hlt)
  rw [h]
  omega

theorem ballStateAfter_append (is2D firstTeam : Bool) (s : BallState)
    (xs ys : List BallInput) :
    ballStateAfter is2D firstTeam s (xs ++ ys) =
      ballStateAfter is2D firstTeam (ballStateAfter is2D firstTeam s xs) ys := by
  induction xs generalizing s with
  | nil => rfl
  | cons a t ih => simp only [List.cons_append, ballStateAfter, List.append_eq, ih]

theorem ballStateAfter_take_succ (is2D firstTeam : Bool) (l : List BallInput) (i : Nat)
    (hi : i < l.length) :
    ballStateAfter is2D firstTeam ballState0 (l.take (i + 1)) =
      (ballStep is2D firstTeam (ballStateAfter is2D firstTeam ballState0 (l.take i))
        (l.getD i default)).state := by
  rw [← List.take_concat_get' l i hi, ballStateAfter_append,
    List.getD_eq_getElem l default hi]
  rfl

theorem ballStateAfter_take_fields (is2D firstTeam : Bool) (l : List BallInput) (i : Nat)
    (hi : i < l.length) :
    (ballStateAfter is2D firstTeam ballState0 (l.take (i + 1))).lastBallTime = timeAt l i ∧
    (ballStateAfter is2D firstTeam ballState0 (l.take (i + 1))).hadVelocity =
      reportsMoving (callResult is2D firstTeam l i) := by
  rw [ballStateAfter_take_succ is2D firstTeam l i hi]
  exact ⟨rfl, rfl⟩

theorem movingAfter_no_branch (is2D firstTeam : Bool) (s : BallState) (inp : BallInput)
    (h : ¬(s.lastBallTime ≠ 0 ∧ s.lastBallTime ≠ inp.currentTime)) :
    movingAfter is2D firstTeam s inp = false := by
  unfold movingAfter estVelocity
  rw [if_neg h]
  simp [Vec3.zero]

theorem drew_char (firstTeam : Bool) (s : BallState) (inp : BallInput)
    (hle : s.lastBallTime ≤ inp.currentTime) (hlt : inp.currentTime < 4294967296) :
    (ballStep false firstTeam s inp).drew =
      if s.hadVelocity = false ∧ movingAfter false firstTeam s inp = true then
        some ((0.015 : ℚ) * ((inp.currentTime : ℚ) - (s.lastBallTime : ℚ)) / 1000)
      else none := by
  show drewOf false firstTeam s inp = _
  by_cases hB : s.lastBallTime ≠ 0 ∧ s.lastBallTime ≠ inp.currentTime
  · have hstd : curveStdDev s inp =
        (0.015 : ℚ) * ((inp.currentTime : ℚ) - (s.lastBallTime : ℚ)) / 1000 := by
      unfold curveStdDev
      rw [elapsedMillis_eq_sub hle hlt, Nat.cast_sub hle]
    by_cases hD : s.hadVelocity = false ∧ movingAfter false firstTeam s inp = true
    · unfold drewOf
      rw [if_pos ⟨hB, rfl, hD.1, hD.2⟩, if_pos hD, hstd]
    · unfold drewOf
      rw [if_neg (fun hc => hD ⟨hc.2.2.1, hc.2.2.2⟩), if_neg hD]
  · have hmov := movingAfter_no_branch false firstTeam s inp hB
    unfold drewOf
    rw [if_neg (fun hc => hB hc.1), if_neg (fun hc => by simp [hmov] at hc)]

/-- C2: across a run of world-state reads with a ball present on a 3D
backend and strictly increasing timestamps, `Random::normal` is invoked
exactly at the calls whose previous call reported a zero horizontal velocity
while the current call's estimated horizontal velocity is nonzero, and the
requested standard deviation is then `0.015 * elapsedMillis / 1000`; in
particular no draw happens on a call whose previous and current horizontal
velocities are both nonzero. -/
theorem curve_draw_iff_transition (firstTeam : Bool) (l : List BallInput)
    (hmono : l.Pairwise (fun a b => a.currentTime < b.currentTime))
    (hbound : ∀ inp ∈ l, inp.currentTime < 4294967296) :
    ∀ i, i < l.length →
      (callResult false firstTeam l i).drew =
        (if prevMoving false firstTeam l i = false ∧
            reportsMoving (callResult false firstTeam l i) = true then
          some ((0.015 : ℚ) * ((timeAt l i : ℚ) - (timeAt l (i - 1) : ℚ)) / 1000)
        else none) := by
  intro i hi
  cases i with
  | zero =>
    have hmov : reportsMoving (callResult false firstTeam l 0) = false := by
      show movingAfter false firstTeam ballState0 (l.getD 0 default) = false
      exact movingAfter_no_branch false firstTeam ballState0 (l.getD 0 default)
        (by simp [ballState0])
    have hdrew : (callResult false firstTeam l 0).drew = none := by
      show drewOf false firstTeam ballState0 (l.getD 0 default) = none
      unfold drewOf
      exact if_neg (fun hc => hc.1.1 rfl)
    rw [hdrew, hmov]
    simp
  | succ j =>
    rw [Nat.add_sub_cancel]
    have hj : j < l.length := Nat.lt_of_succ_lt hi
    obtain ⟨hlast, hhad⟩ := ballStateAfter_take_fields false firstTeam l j hj
    have htj : timeAt l j < timeAt l (j + 1) := by
      have hp := List.pairwise_iff_getElem.mp hmono j (j + 1) hj hi (Nat.lt_succ_self j)
      unfold timeAt
      rw [List.getD_eq_getElem l default hj, List.getD_eq_getElem l default hi]
      exact hp
    have hle : (ballStateAfter false firstTeam ballState0 (l.take (j + 1))).lastBallTime ≤
        (l.getD (j + 1) default).currentTime := by
      rw [hlast]
      exact Nat.le_of_lt htj
    have hbnd : (l.getD (j + 1) default).currentTime < 4294967296 := by
      rw [List.getD_eq_getElem l default hi]
      exact hbound _ (List.getElem_mem hi)
    have hpm : prevMoving false firstTeam l (j + 1) =
        (ballStateAfter false firstTeam ballState0 (l.take (j + 1))).hadVelocity := by
      rw [show prevMoving false firstTeam l (j + 1) =
          reportsMoving (callResult false firstTeam l j) from rfl, ← hhad]
    have hdrew : (callResult false firstTeam l (j + 1)).drew =
        (ballStep false firstTeam (ballStateAfter false firstTeam ballState0 (l.take (j + 1)))
          (l.getD (j + 1) default)).drew := rfl
    have hrm : reportsMoving (callResult false firstTeam l (j + 1)) =
        movingAfter false firstTeam (ballStateAfter false firstTeam ballState0 (l.take (j + 1)))
          (l.getD (j + 1) default) := rfl
    rw [hdrew, drew_char firstTeam _ _ hle hbnd, hrm, hpm, hlast]
    rfl

/-- Witness for C2: a two-call run with timestamps 1 and 2 whose second call
sees the ball move; that call draws with standard deviation
`0.015 * 1 / 1000`. -/
theorem curve_draw_iff_transition_witness :
    (callResult false false
        [⟨1, Vec3.zero, Vec3.zero, 1⟩, ⟨2, ⟨1, 0, 0⟩, Vec3.zero, 1⟩] 1).drew =
      (if prevMoving false false
            [⟨1, Vec3.zero, Vec3.zero, 1⟩, ⟨2, ⟨1, 0, 0⟩, Vec3.zero, 1⟩] 1 = false ∧
          reportsMoving (callResult false false
            [⟨1, Vec3.zero, Vec3.zero, 1⟩, ⟨2, ⟨1, 0, 0⟩, Vec3.zero, 1⟩] 1) = true then
        some ((0.015 : ℚ) *
          ((timeAt [⟨1, Vec3.zero, Vec3.zero, 1⟩, ⟨2, ⟨1, 0, 0⟩, Vec3.zero, 1⟩] 1 : ℚ) -
            (timeAt [⟨1, Vec3.zero, Vec3.zero, 1⟩, ⟨2, ⟨1, 0, 0⟩, Vec3.zero, 1⟩] (1 - 1) : ℚ)) /
          1000)
      else none) :=
  curve_draw_iff_transition false
    [⟨1, Vec3.zero, Vec3.zero, 1⟩, ⟨2, ⟨1, 0, 0⟩, Vec3.zero, 1⟩]
    (by decide) (by decide) 1 (by decide)

/-- Counterexample to C3 as stated: a three-call run (3D backend, ball
present) with timestamps 1, 2, 2. The second call sees the ball move and
rolls a nonzero curve angle; the third call repeats the previous timestamp,
so it reports a zero velocity through the fallback branch, which leaves
`curveVel` untouched and nonzero. -/
theorem curveVel_nonzero_after_zero_velocity_call :
    (callResult false false
        [⟨1, Vec3.zero, Vec3.zero, 1⟩, ⟨2, ⟨1, 0, 0⟩, Vec3.zero, 1⟩,
          ⟨2, ⟨1, 0, 0⟩, Vec3.zero, 1⟩] 2).gtVel = Vec3.zero ∧
    (callResult false false
        [⟨1, Vec3.zero, Vec3.zero, 1⟩, ⟨2, ⟨1, 0, 0⟩, Vec3.zero, 1⟩,
          ⟨2, ⟨1, 0, 0⟩, Vec3.zero, 1⟩] 2).state.curveVel ≠ 0 := by
  have e1 : (ballStep false false ballState0 ⟨1, Vec3.zero, Vec3.zero, 1⟩).state =
      ⟨Vec3.zero, 1, false, 0⟩ := by
    norm_num [ballStep, ballState0, curveAfter, movingAfter, estVelocity, canonicalBallPos,
      getPosition3D, Vec3.zero, BallState.mk.injEq, Vec3.mk.injEq, decide_eq_true_eq,
      decide_eq_false_iff_not]
  have e2 : (ballStep false false (⟨Vec3.zero, 1, false, 0⟩ : BallState)
      ⟨2, ⟨1, 0, 0⟩, Vec3.zero, 1⟩).state = ⟨⟨1000, 0, 0⟩, 2, true, 3 / 200000⟩ := by
    norm_num [ballStep, curveAfter, movingAfter, estVelocity, canonicalBallPos,
      getPosition3D, curveStdDev, elapsedMillis, Vec3.zero, BallState.mk.injEq,
      Vec3.mk.injEq, decide_eq_true_eq, decide_eq_false_iff_not]
  have hcall : callResult false false
      [⟨1, Vec3.zero, Vec3.zero, 1⟩, ⟨2, ⟨1, 0, 0⟩, Vec3.zero, 1⟩,
        ⟨2, ⟨1, 0, 0⟩, Vec3.zero, 1⟩] 2 =
      ballStep false false
        (ballStep false false (ballStep false false ballState0
          ⟨1, Vec3.zero, Vec3.zero, 1⟩).state ⟨2, ⟨1, 0, 0⟩, Vec3.zero, 1⟩).state
        ⟨2, ⟨1, 0, 0⟩, Vec3.zero, 1⟩ := rfl
  rw [hcall, e1, e2]
  constructor
  · norm_num [ballStep, estVelocity]
  · norm_num [ballStep, curveAfter]

/-- C3 as amended: after a call on the 3D backend in which a previous sample
existed with a differing timestamp (so the velocity-estimation branch ran)
and the reported horizontal velocity is the zero vector, the stored curve
angle is zero. -/
theorem curveVel_zero_after_estimation_branch (firstTeam : Bool) (s : BallState)
    (inp : BallInput) (h0 : s.lastBallTime ≠ 0) (ht : s.lastBallTime ≠ inp.currentTime)
    (hv : (ballStep false firstTeam s inp).gtVel.x = 0 ∧
      (ballStep false firstTeam s inp).gtVel.y = 0) :
    (ballStep false firstTeam s inp).state.curveVel = 0 := by
  have hx : (estVelocity false firstTeam s inp).x = 0 := hv.1
  have hy : (estVelocity false firstTeam s inp).y = 0 := hv.2
  have hmov : movingAfter false firstTeam s inp = false := by
    simp [movingAfter, hx, hy]
  show curveAfter false firstTeam s inp = 0
  unfold curveAfter
  rw [if_pos ⟨⟨h0, ht⟩, rfl⟩]
  simp [hmov]

/-- Witness for the amended C3: a call at time 2 whose previous sample was
taken at time 1 at the same position, with a stale nonzero curve angle; the
reported velocity is zero and the curve angle is reset. -/
theorem curveVel_zero_after_estimation_branch_witness :
    (ballStep false false ⟨Vec3.zero, 1, false, 5⟩ ⟨2, Vec3.zero, Vec3.zero, 0⟩).state.curveVel
      = 0 :=
  curveVel_zero_after_estimation_branch false ⟨Vec3.zero, 1, false, 5⟩
    ⟨2, Vec3.zero, Vec3.zero, 0⟩ (by decide) (by decide)
    (by norm_num [ballStep, estVelocity, canonicalBallPos, getPosition3D, Vec3.zero,
      elapsedMillis])

/-- C1: for every call to the world-state read with a ball registered, if a
previous ball sample exists (`lastBallTime` nonzero) and its timestamp
differs from the current time, the reported ball velocity is the finite
difference `1000 * (currentPosition - lastBallPosition) / (currentTime -
lastBallTime)`; otherwise (first sample, or identical timestamps, regardless
of the position delta) the reported velocity is exactly the zero vector.
The clock is a monotonic 32-bit millisecond counter, so `lastBallTime ≤
currentTime < 2 ^ 32`. -/
theorem gtVel_finite_difference (is2D firstTeam : Bool) (s : BallState) (inp : BallInput)
    (hle : s.lastBallTime ≤ inp.currentTime) (hlt : inp.currentTime < 4294967296) :
    ((s.lastBallTime ≠ 0 ∧ s.lastBallTime ≠ inp.currentTime) →
      (ballStep is2D firstTeam s inp).gtVel =
        ⟨1000 * ((ballStep is2D firstTeam s inp).gtPos.x - s.lastBallPosition.x) /
            ((inp.currentTime : ℚ) - (s.lastBallTime : ℚ)),
         1000 * ((ballStep is2D firstTeam s inp).gtPos.y - s.lastBallPosition.y) /
            ((inp.currentTime : ℚ) - (s.lastBallTime : ℚ)),
         1000 * ((ballStep is2D firstTeam s inp).gtPos.z - s.lastBallPosition.z) /
            ((inp.currentTime : ℚ) - (s.lastBallTime : ℚ))⟩) ∧
    ((s.lastBallTime = 0 ∨ s.lastBallTime = inp.currentTime) →
      (ballStep is2D firstTeam s inp).gtVel = Vec3.zero) := by
  have hcast : (elapsedMillis inp.currentTime s.lastBallTime : ℚ) =
      (inp.currentTime : ℚ) - (s.lastBallTime : ℚ) := by
    rw [elapsedMillis_eq_sub hle hlt, Nat.cast_sub hle]
  constructor
  · intro h
    simp only [ballStep, estVelocity, if_pos h, hcast]
  · intro h
    have h' : ¬(s.lastBallTime ≠ 0 ∧ s.lastBallTime ≠ inp.currentTime) := by tauto
    simp only [ballStep, estVelocity, if_neg h']

/-- Witness for C1 at a concrete input: previous sample at time 1 at the
origin, current call at time 3 with raw position (1, 2, 3) meters, so the
finite difference over 2 ms yields (500000, 1000000, 1500000) mm/s. -/
theorem gtVel_finite_difference_witness :
    (ballStep false false ⟨Vec3.zero, 1, false, 0⟩ ⟨3, ⟨1, 2, 3⟩, Vec3.zero, 0⟩).gtVel =
      ⟨500000, 1000000, 1500000⟩ := by
  have h := (gtVel_finite_difference false false ⟨Vec3.zero, 1, false, 0⟩
      ⟨3, ⟨1, 2, 3⟩, Vec3.zero, 0⟩ (by decide) (by decide)).1 (by decide)
  rw [h]
  norm_num [ballStep, canonicalBallPos, getPosition3D, Vec3.zero, Vec3.mk.injEq]

/-- C4: for every canonical planar pose and team flag, applying the
placement canonical-to-raw transform and then the read-path raw-to-canonical
transform reproduces the pose: the position exactly, the yaw up to a whole
number of turns (angle wraparound). -/
theorem raw_canonical_roundtrip (firstTeam : Bool) (p : Pose2f) :
    (readPose firstTeam (moveTransform firstTeam p)).x = p.x ∧
    (readPose firstTeam (moveTransform firstTeam p)).y = p.y ∧
    ∃ k : ℤ, (readPose firstTeam (moveTransform firstTeam p)).rotation =
      p.rotation + 2 * Real.pi * k := by
  cases firstTeam with
  | false =>
    refine ⟨rfl, rfl, 0, ?_⟩
    simp [readPose, moveTransform]
  | true =>
    simp only [readPose, moveTransform, if_pos, Pose2f.comp, normalizeAngle,
      Real.cos_pi, Real.sin_pi]
    refine ⟨by ring, by ring, 1 - ⌊(p.rotation + Real.pi + Real.pi) / (2 * Real.pi)⌋, ?_⟩
    push_cast
    ring

/-- C8: a raw robot pose (x = 1000, y = 0, yaw = 0) read into a snapshot by
a first-team synchronizer yields the canonical pose (x = -1000, y = 0,
yaw = pi), and read by a second-team synchronizer yields (x = 1000, y = 0,
yaw = 0) unchanged. -/
theorem first_team_pose_rotation :
    ((getWorldState 20 false true [⟨5, 5⟩] [] (fun _ => (⟨0, 1000, 0⟩, true)) ⟨0, 0, 0⟩
        none ballState0).1.ownTeamPlayers.map GroundTruthPlayer.pose =
      [⟨Real.pi, -1000, 0⟩]) ∧
    ((getWorldState 20 false false [⟨5, 5⟩] [] (fun _ => (⟨0, 1000, 0⟩, true)) ⟨0, 0, 0⟩
        none ballState0).1.opponentTeamPlayers.map GroundTruthPlayer.pose =
      [⟨0, 1000, 0⟩]) := by
  constructor
  · simp [getWorldState, readPose, Pose2f.comp, Real.cos_pi, Real.sin_pi]
  · simp [getWorldState, readPose]

/-- C6: the snapshot's ball list has exactly one entry when a ball object is
registered process-wide and is empty when none is: absence is an ordinary
result, not a failure. -/
theorem balls_length (robotsPerTeam : ℤ) (is2D firstTeam : Bool)
    (firstTeamRobots secondTeamRobots : List SceneObject)
    (getPose2f : SceneObject → Pose2f × Bool) (ownPose : Pose2f)
    (ball : Option BallInput) (s : BallState) :
    (getWorldState robotsPerTeam is2D firstTeam firstTeamRobots secondTeamRobots getPose2f
        ownPose ball s).1.balls.length = if ball.isSome then 1 else 0 := by
  cases ball with
  | none => rfl
  | some inp => rfl

/-- C7: in every snapshot, second-team players are reported with their raw
parsed number minus `robotsPerTeam` (hence in `[1, robotsPerTeam]` when the
raw numbers lie in `[robotsPerTeam + 1, 2 * robotsPerTeam]`), while
first-team players are reported with their raw number unmodified. -/
theorem second_team_numbers_normalized (robotsPerTeam : ℤ) (is2D firstTeam : Bool)
    (firstTeamRobots secondTeamRobots : List SceneObject)
    (getPose2f : SceneObject → Pose2f × Bool) (ownPose : Pose2f)
    (ball : Option BallInput) (s : BallState)
    (hrange : ∀ obj ∈ secondTeamRobots,
      robotsPerTeam + 1 ≤ obj.number ∧ obj.number ≤ 2 * robotsPerTeam) :
    ((if firstTeam then
        (getWorldState robotsPerTeam is2D firstTeam firstTeamRobots secondTeamRobots
          getPose2f ownPose ball s).1.opponentTeamPlayers
      else
        (getWorldState robotsPerTeam is2D firstTeam firstTeamRobots secondTeamRobots
          getPose2f ownPose ball s).1.ownTeamPlayers).map GroundTruthPlayer.number =
      secondTeamRobots.map fun obj => obj.number - robotsPerTeam) ∧
    ((if firstTeam then
        (getWorldState robotsPerTeam is2D firstTeam firstTeamRobots secondTeamRobots
          getPose2f ownPose ball s).1.ownTeamPlayers
      else
        (getWorldState robotsPerTeam is2D firstTeam firstTeamRobots secondTeamRobots
          getPose2f ownPose ball s).1.opponentTeamPlayers).map GroundTruthPlayer.number =
      firstTeamRobots.map SceneObject.number) ∧
    (∀ n ∈ (if firstTeam then
        (getWorldState robotsPerTeam is2D firstTeam firstTeamRobots secondTeamRobots
          getPose2f ownPose ball s).1.opponentTeamPlayers
      else
        (getWorldState robotsPerTeam is2D firstTeam firstTeamRobots secondTeamRobots
          getPose2f ownPose ball s).1.ownTeamPlayers).map GroundTruthPlayer.number,
      1 ≤ n ∧ n ≤ robotsPerTeam) := by
  have hsecond : (if firstTeam then
      (getWorldState robotsPerTeam is2D firstTeam firstTeamRobots secondTeamRobots
        getPose2f ownPose ball s).1.opponentTeamPlayers
    else
      (getWorldState robotsPerTeam is2D firstTeam firstTeamRobots secondTeamRobots
        getPose2f ownPose ball s).1.ownTeamPlayers) =
      secondTeamRobots.map fun obj =>
        { number := obj.number - robotsPerTeam
          pose := readPose firstTeam (getPose2f obj).1
          upright := (getPose2f obj).2 } := by
    cases firstTeam <;> rfl
  have hfirst : (if firstTeam then
      (getWorldState robotsPerTeam is2D firstTeam firstTeamRobots secondTeamRobots
        getPose2f ownPose ball s).1.ownTeamPlayers
    else
      (getWorldState robotsPerTeam is2D firstTeam firstTeamRobots secondTeamRobots
        getPose2f ownPose ball s).1.opponentTeamPlayers) =
      firstTeamRobots.map fun obj =>
        { number := obj.number
          pose := readPose firstTeam (getPose2f obj).1
          upright := (getPose2f obj).2 } := by
    cases firstTeam <;> rfl
  refine ⟨?_, ?_, ?_⟩
  · rw [hsecond, List.map_map]
    rfl
  · rw [hfirst, List.map_map]
    rfl
  · rw [hsecond, List.map_map]
    intro n hn
    obtain ⟨obj, hobj, hn⟩ := List.mem_map.mp hn
    obtain ⟨h1, h2⟩ := hrange obj hobj
    have : n = obj.number - robotsPerTeam := hn.symm
    omega

/-- Witness for C7: `robotsPerTeam = 2`, one first-team robot numbered 3
observed raw, two second-team robots numbered 3 and 4 reported as 1 and 2. -/
theorem second_team_numbers_normalized_witness :
    (((getWorldState 2 false false [⟨0, 1⟩] [⟨1, 3⟩, ⟨2, 4⟩]
        (fun _ => (⟨0, 0, 0⟩, true)) ⟨0, 0, 0⟩ none ballState0).1.ownTeamPlayers).map
          GroundTruthPlayer.number =
      ([⟨1, 3⟩, ⟨2, 4⟩] : List SceneObject).map fun obj => obj.number - 2) ∧
    (((getWorldState 2 false false [⟨0, 1⟩] [⟨1, 3⟩, ⟨2, 4⟩]
        (fun _ => (⟨0, 0, 0⟩, true)) ⟨0, 0, 0⟩ none ballState0).1.opponentTeamPlayers).map
          GroundTruthPlayer.number = ([⟨0, 1⟩] : List SceneObject).map SceneObject.number) ∧
    (∀ n ∈ ((getWorldState 2 false false [⟨0, 1⟩] [⟨1, 3⟩, ⟨2, 4⟩]
        (fun _ => (⟨0, 0, 0⟩, true)) ⟨0, 0, 0⟩ none ballState0).1.ownTeamPlayers).map
          GroundTruthPlayer.number, 1 ≤ n ∧ n ≤ 2) := by
  have h := second_team_numbers_normalized 2 false false [⟨0, 1⟩] [⟨1, 3⟩, ⟨2, 4⟩]
    (fun _ => (⟨0, 0, 0⟩, true)) ⟨0, 0, 0⟩ none ballState0 (by decide)
  simpa using h

theorem speed_scale (c : ℝ) (v : Vec2R) :
    speed ⟨c * v.x, c * v.y⟩ = |c| * speed v := by
  unfold speed
  rw [show (c * v.x) ^ 2 + (c * v.y) ^ 2 = c ^ 2 * (v.x ^ 2 + v.y ^ 2) by ring,
    Real.sqrt_mul (sq_nonneg c), Real.sqrt_sq_eq_abs]

/-- C5: on the 2D backend with a ball present, when the magnitude of the
friction decrement `friction * simStepLength / 1000` exceeds the current
speed, the resulting velocity is exactly the zero vector (never a reversed
direction); otherwise the velocity keeps its direction (a nonnegative
rescaling) and its magnitude becomes the old speed plus the negative
decrement. -/
theorem friction_clamps (v : Vec2R) (friction simStepLength : ℝ)
    (hf : friction ≤ 0) (hs : 0 ≤ simStepLength) :
    (speed v < -(friction * simStepLength / 1000) →
      applyBallFriction true (some v) friction simStepLength = some ⟨0, 0⟩) ∧
    (-(friction * simStepLength / 1000) ≤ speed v →
      ∃ c : ℝ, 0 ≤ c ∧
        applyBallFriction true (some v) friction simStepLength =
          some ⟨c * v.x, c * v.y⟩ ∧
        speed ⟨c * v.x, c * v.y⟩ = speed v + friction * simStepLength / 1000) := by
  have hS : 0 ≤ speed v := Real.sqrt_nonneg _
  have key : applyBallFriction true (some v) friction simStepLength =
      some (frictionVelocity v friction simStepLength) := rfl
  constructor
  · intro h
    rw [key]
    unfold frictionVelocity
    rw [if_pos (by linarith)]
  · intro h
    by_cases hz : speed v + friction * simStepLength / 1000 ≤ 0
    · have h0 : speed v + friction * simStepLength / 1000 = 0 := by linarith
      refine ⟨0, le_refl 0, ?_, ?_⟩
      · rw [key]
        unfold frictionVelocity
        rw [if_pos hz]
        norm_num
      · rw [show (⟨0 * v.x, 0 * v.y⟩ : Vec2R) = ⟨0, 0⟩ by norm_num, h0]
        unfold speed
        norm_num
    · push_neg at hz
      have hSpos : 0 < speed v := by
        have hd : friction * simStepLength / 1000 ≤ 0 := by
          have h1 : friction * simStepLength ≤ 0 :=
            mul_nonpos_of_nonpos_of_nonneg hf hs
          linarith
        linarith
      refine ⟨(speed v + friction * simStepLength / 1000) / speed v,
        div_nonneg (by linarith) (le_of_lt hSpos), ?_, ?_⟩
      · rw [key]
        unfold frictionVelocity
        rw [if_neg (by linarith)]
        rw [mul_comm v.x, mul_comm v.y]
      · rw [speed_scale, abs_of_nonneg (div_nonneg (by linarith) (le_of_lt hSpos)),
          div_mul_cancel₀ _ (ne_of_gt hSpos)]

/-- Witness for C5: velocity (3, 4) with speed 5 and decrement of magnitude
10 over one second, which clamps the ball to rest. -/
theorem friction_clamps_witness :
    (speed ⟨3, 4⟩ < -((-10) * 1000 / 1000) →
      applyBallFriction true (some ⟨3, 4⟩) (-10) 1000 = some ⟨0, 0⟩) ∧
    (-((-10) * 1000 / 1000) ≤ speed ⟨3, 4⟩ →
      ∃ c : ℝ, 0 ≤ c ∧
        applyBallFriction true (some ⟨3, 4⟩) (-10) 1000 = some ⟨c * 3, c * 4⟩ ∧
        speed ⟨c * 3, c * 4⟩ = speed ⟨3, 4⟩ + (-10) * 1000 / 1000) :=
  friction_clamps ⟨3, 4⟩ (-10) 1000 (by norm_num) (by norm_num)

theorem mem_classifyGroup_fst (robotsPerTeam robotNumber : ℤ) (group : List SceneObject)
    (acc : List SceneObject × List SceneObject) (x : SceneObject) :
    x ∈ (classifyGroup robotsPerTeam robotNumber group acc).1 ↔
      x ∈ acc.1 ∨ (x ∈ group ∧ x.number ≠ robotNumber ∧ x.number ≤ robotsPerTeam) := by
  induction group generalizing acc with
  | nil => simp [classifyGroup]
  | cons a t ih =>
    have hstep : classifyGroup robotsPerTeam robotNumber (a :: t) acc =
        classifyGroup robotsPerTeam robotNumber t
          (if a.number ≠ robotNumber then
            (if a.number ≤ robotsPerTeam then (acc.1 ++ [a], acc.2)
             else (acc.1, acc.2 ++ [a]))
          else acc) := rfl
    rw [hstep, ih]
    by_cases h1 : a.number = robotNumber
    · rw [if_neg (by simpa using h1)]
      constructor
      · rintro (h | ⟨ht, hp⟩)
        · exact Or.inl h
        · exact Or.inr ⟨List.mem_cons_of_mem a ht, hp⟩
      · rintro (h | ⟨ha, hp⟩)
        · exact Or.inl h
        · rcases List.mem_cons.mp ha with rfl | ht
          · exact absurd h1 hp.1
          · exact Or.inr ⟨ht, hp⟩
    · by_cases h2 : a.number ≤ robotsPerTeam
      · rw [if_pos h1, if_pos h2]
        constructor
        · rintro (h | ⟨ht, hp⟩)
          · rcases List.mem_append.mp h with h | h
            · exact Or.inl h
            · rcases List.mem_singleton.mp h with rfl
              exact Or.inr ⟨List.mem_cons_self _ t, h1, h2⟩
          · exact Or.inr ⟨List.mem_cons_of_mem a ht, hp⟩
        · rintro (h | ⟨ha, hp⟩)
          · exact Or.inl (List.mem_append.mpr (Or.inl h))
          · rcases List.mem_cons.mp ha with rfl | ht
            · exact Or.inl (List.mem_append.mpr (Or.inr (List.mem_singleton.mpr rfl)))
            · exact Or.inr ⟨ht, hp⟩
      · rw [if_pos h1, if_neg h2]
        constructor
        · rintro (h | ⟨ht, hp⟩)
          · exact Or.inl h
          · exact Or.inr ⟨List.mem_cons_of_mem a ht, hp⟩
        · rintro (h | ⟨ha, hp⟩)
          · exact Or.inl h
          · rcases List.mem_cons.mp ha with rfl | ht
            · exact absurd hp.2 h2
            · exact Or.inr ⟨ht, hp⟩

theorem mem_classifyGroup_snd (robotsPerTeam robotNumber : ℤ) (group : List SceneObject)
    (acc : List SceneObject × List SceneObject) (x : SceneObject) :
    x ∈ (classifyGroup robotsPerTeam robotNumber group acc).2 ↔
      x ∈ acc.2 ∨ (x ∈ group ∧ x.number ≠ robotNumber ∧ robotsPerTeam < x.number) := by
  induction group generalizing acc with
  | nil => simp [classifyGroup]
  | cons a t ih =>
    have hstep : classifyGroup robotsPerTeam robotNumber (a :: t) acc =
        classifyGroup robotsPerTeam robotNumber t
          (if a.number ≠ robotNumber then
            (if a.number ≤ robotsPerTeam then (acc.1 ++ [a], acc.2)
             else (acc.1, acc.2 ++ [a]))
          else acc) := rfl
    rw [hstep, ih]
    by_cases h1 : a.number = robotNumber
    · rw [if_neg (by simpa using h1)]
      constructor
      · rintro (h | ⟨ht, hp⟩)
        · exact Or.inl h
        · exact Or.inr ⟨List.mem_cons_of_mem a ht, hp⟩
      · rintro (h | ⟨ha, hp⟩)
        · exact Or.inl h
        · rcases List.mem_cons.mp ha with rfl | ht
          · exact absurd h1 hp.1
          · exact Or.inr ⟨ht, hp⟩
    · by_cases h2 : a.number ≤ robotsPerTeam
      · rw [if_pos h1, if_pos h2]
        constructor
        · rintro (h | ⟨ht, hp⟩)
          · exact Or.inl h
          · exact Or.inr ⟨List.mem_cons_of_mem a ht, hp⟩
        · rintro (h | ⟨ha, hp⟩)
          · exact Or.inl h
          · rcases List.mem_cons.mp ha with rfl | ht
            · exact absurd h2 (not_le.mpr hp.2)
            · exact Or.inr ⟨ht, hp⟩
      · rw [if_pos h1, if_neg h2]
        constructor
        · rintro (h | ⟨ht, hp⟩)
          · rcases List.mem_append.mp h with h | h
            · exact Or.inl h
            · rcases List.mem_singleton.mp h with rfl
              exact Or.inr ⟨List.mem_cons_self _ t, h1, not_le.mp h2⟩
          · exact Or.inr ⟨List.mem_cons_of_mem a ht, hp⟩
        · rintro (h | ⟨ha, hp⟩)
          · exact Or.inl (List.mem_append.mpr (Or.inl h))
          · rcases List.mem_cons.mp ha with rfl | ht
            · exact Or.inl (List.mem_append.mpr (Or.inr (List.mem_singleton.mpr rfl)))
            · exact Or.inr ⟨ht, hp⟩

/-- C9: at construction, provided the scene satisfies the specified
uniqueness invariant (no other child of the two groups shares the owning
robot's parsed number), every child of the "robots" and "extras" groups
except the owning robot itself lands in exactly one roster list — the
first-team list exactly when `isFirstTeam` holds of it, the second-team
list otherwise — and the owning robot appears in neither list. -/
theorem roster_partition (robotsPerTeam robotNumber : ℤ) (own : SceneObject)
    (robotsGroup extrasGroup : List SceneObject)
    (hown : own.number = robotNumber)
    (huniq : ∀ obj ∈ robotsGroup ++ extrasGroup, obj ≠ own → obj.number ≠ robotNumber) :
    (∀ obj ∈ robotsGroup ++ extrasGroup, obj ≠ own →
      ((obj ∈ (buildRosters robotsPerTeam robotNumber robotsGroup extrasGroup).1 ↔
          isFirstTeam robotsPerTeam obj = true) ∧
        (obj ∈ (buildRosters robotsPerTeam robotNumber robotsGroup extrasGroup).2 ↔
          isFirstTeam robotsPerTeam obj = false))) ∧
    own ∉ (buildRosters robotsPerTeam robotNumber robotsGroup extrasGroup).1 ∧
    own ∉ (buildRosters robotsPerTeam robotNumber robotsGroup extrasGroup).2 := by
  have hfst : ∀ x, x ∈ (buildRosters robotsPerTeam robotNumber robotsGroup extrasGroup).1 ↔
      (x ∈ robotsGroup ∨ x ∈ extrasGroup) ∧ x.number ≠ robotNumber ∧
        x.number ≤ robotsPerTeam := by
    intro x
    unfold buildRosters
    rw [mem_classifyGroup_fst, mem_classifyGroup_fst]
    simp only [List.not_mem_nil, false_or]
    tauto
  have hsnd : ∀ x, x ∈ (buildRosters robotsPerTeam robotNumber robotsGroup extrasGroup).2 ↔
      (x ∈ robotsGroup ∨ x ∈ extrasGroup) ∧ x.number ≠ robotNumber ∧
        robotsPerTeam < x.number := by
    intro x
    unfold buildRosters
    rw [mem_classifyGroup_snd, mem_classifyGroup_snd]
    simp only [List.not_mem_nil, false_or]
    tauto
  refine ⟨?_, ?_, ?_⟩
  · intro obj hm hne
    have hC := huniq obj hm hne
    have hm' : obj ∈ robotsGroup ∨ obj ∈ extrasGroup := by
      simpa [List.mem_append] using hm
    constructor
    · rw [hfst]
      unfold isFirstTeam
      rw [decide_eq_true_eq]
      exact ⟨fun h => h.2.2, fun h => ⟨hm', hC, h⟩⟩
    · rw [hsnd]
      unfold isFirstTeam
      rw [decide_eq_false_iff_not, not_le]
      exact ⟨fun h => h.2.2, fun h => ⟨hm', hC, h⟩⟩
  · rw [hfst]
    rintro ⟨_, hno, _⟩
    exact hno hown
  · rw [hsnd]
    rintro ⟨_, hno, _⟩
    exact hno hown

/-- Witness for C9: `robotsPerTeam = 2`, owning robot numbered 1, a robots
group holding the owner and a robot numbered 2, an extras group holding a
robot numbered 3. -/
theorem roster_partition_witness :
    (∀ obj ∈ ([⟨0, 1⟩, ⟨1, 2⟩] : List SceneObject) ++ ([⟨2, 3⟩] : List SceneObject),
      obj ≠ (⟨0, 1⟩ : SceneObject) →
      ((obj ∈ (buildRosters 2 1 [⟨0, 1⟩, ⟨1, 2⟩] [⟨2, 3⟩]).1 ↔
          isFirstTeam 2 obj = true) ∧
        (obj ∈ (buildRosters 2 1 [⟨0, 1⟩, ⟨1, 2⟩] [⟨2, 3⟩]).2 ↔
          isFirstTeam 2 obj = false))) ∧
    (⟨0, 1⟩ : SceneObject) ∉ (buildRosters 2 1 [⟨0, 1⟩, ⟨1, 2⟩] [⟨2, 3⟩]).1 ∧
    (⟨0, 1⟩ : SceneObject) ∉ (buildRosters 2 1 [⟨0, 1⟩, ⟨1, 2⟩] [⟨2, 3⟩]).2 :=
  roster_partition 2 1 ⟨0, 1⟩ [⟨0, 1⟩, ⟨1, 2⟩] [⟨2, 3⟩] (by decide) (by decide)

/-- C10: `getAbsoluteBallPosition` returns true exactly when a ball object
is registered, and when it returns false the output parameter is left
completely unmodified. -/
theorem getAbsoluteBallPosition_spec (ball : Option Vec2) (ballPosition : Vec2) :
    ((getAbsoluteBallPosition ball ballPosition).1 = ball.isSome) ∧
    ((getAbsoluteBallPosition ball ballPosition).1 = false →
      (getAbsoluteBallPosition ball ballPosition).2 = ballPosition) := by
  cases ball with
  | none => exact ⟨rfl, fun _ => rfl⟩
  | some raw => exact ⟨rfl, fun h => nomatch h⟩

end SimulatedRobot
